import Mathlib

/-!
Shallow embedding of the PDF merge / watermark / editor engine
(`services/pdfService.ts`) of the `pdf1` repository.

Modelling conventions:
* Machine floats of the source become rationals (`ℚ`); the trigonometric
  functions `Math.cos` / `Math.sin` (applied to `angle * π / 180`) are
  abstracted as an oracle `Trig` mapping the angle in degrees to a rational
  value, since only the algebraic structure of the geometry is at stake.
* Font metrics (`font.widthOfTextAtSize`, `font.heightAtSize`) are abstracted
  as an oracle `PDFFont`.
* A PDF page is its size, its `Rotate` attribute, an abstract content tag
  (tracking page identity/provenance through copies) and the list of draw
  operations performed on it.  `pdf-lib`'s `copyPages` yields pages equal to
  the source pages; `save`/`load` round-trip the page list.
* Fallible operations (`PDFDocument.load` on malformed bytes, `copyPages`
  with an out-of-range index, `embedPng`/`embedJpg` on undecodable bytes)
  return `Option`; a thrown exception that the source does not catch is `none`.
* The advisory `onProgress` callback is side-effect free (spec §6) and is
  omitted.
-/

set_option autoImplicit false

namespace Pdf1

/-- An RGB colour as produced by pdf-lib's `rgb` helper. -/
structure Color where
  r : ℚ
  g : ℚ
  b : ℚ
deriving Repr, DecidableEq

/-- pdf-lib's `rgb`. -/
def rgb (r g b : ℚ) : Color := ⟨r, g, b⟩

/-- `const DEFAULT_WATERMARK_TEXT = 'vtunotesforall'`. -/
def DEFAULT_WATERMARK_TEXT : String := "vtunotesforall"

/-- `const STRICT_WATERMARK_COLOR = rgb(0.5, 0.5, 0.5)`. -/
def STRICT_WATERMARK_COLOR : Color := rgb (1/2) (1/2) (1/2)

/-- `const WATERMARK_ANGLE = 60`. -/
def WATERMARK_ANGLE : ℤ := 60

/-- Is `c` in the regex character class `[a-f\d]` (case-insensitive)? -/
def isHexChar (c : Char) : Bool :=
  (('0' ≤ c && c ≤ '9') || ('a' ≤ c && c ≤ 'f') || ('A' ≤ c && c ≤ 'F'))

/-- Numeric value of one hex digit, as consumed by `parseInt(_, 16)`. -/
def hexCharVal (c : Char) : ℚ :=
  if '0' ≤ c && c ≤ '9' then (c.toNat - '0'.toNat : ℕ)
  else if 'a' ≤ c && c ≤ 'f' then ((c.toNat - 'a'.toNat : ℕ) + 10 : ℕ)
  else if 'A' ≤ c && c ≤ 'F' then ((c.toNat - 'A'.toNat : ℕ) + 10 : ℕ)
  else 0

/-- `parseInt` of a two-hex-digit group, divided by 255 as in `hexToRgb`. -/
def hexPairVal (c₁ c₂ : Char) : ℚ := (hexCharVal c₁ * 16 + hexCharVal c₂) / 255

/--
The regex match `/^#?([a-f\d]{2})([a-f\d]{2})([a-f\d]{2})$/i.exec(hex)`:
`some` colour when the string matches (an optional leading `#`, then exactly
six hex digits), `none` otherwise.
-/
def hexExec (hex : String) : Option Color :=
  match (if hex.data.head? = some '#' then hex.data.tail else hex.data) with
  | [c₁, c₂, c₃, c₄, c₅, c₆] =>
    if isHexChar c₁ && isHexChar c₂ && isHexChar c₃ &&
       isHexChar c₄ && isHexChar c₅ && isHexChar c₆ then
      some (rgb (hexPairVal c₁ c₂) (hexPairVal c₃ c₄) (hexPairVal c₅ c₆))
    else none
  | _ => none

/-- `hexToRgb`: the matched colour, or the strict gray fallback. -/
def hexToRgb (hex : String) : Color :=
  (hexExec hex).getD STRICT_WATERMARK_COLOR

/-- Whether `hex` matches the six-hex-digit form accepted by `hexToRgb`. -/
def hexMatches (hex : String) : Bool := (hexExec hex).isSome

/--
One primitive draw operation recorded on a page.  The `svgDiamond`
constructor abstracts the `drawSvgPath` call of `drawDiamond`, whose path
string is determined by the centre `(cx, cy)` and radius `r`.
-/
inductive DrawOp where
  | text (s : String) (x y size : ℚ) (color : Color) (opacity : ℚ) (rotate : ℤ)
  | image (x y w h opacity : ℚ)
  | rect (x y w h : ℚ) (color : Color) (opacity : ℚ)
      (borderColor : Option Color) (borderWidth : ℚ)
  | circle (x y size : ℚ) (color : Color)
  | svgDiamond (cx cy r : ℚ) (color : Color)
deriving Repr, DecidableEq

/-- Is this draw operation an image draw? -/
def DrawOp.isImage : DrawOp → Bool
  | .image _ _ _ _ _ => true
  | _ => false

/-- The colour of a text draw operation, `none` for other operations. -/
def DrawOp.textColor : DrawOp → Option Color
  | .text _ _ _ _ c _ _ => some c
  | _ => none

/--
A page: abstract content identity (preserved by `copyPages`), size in
points, the `Rotate` attribute, and the draw operations applied to it.
-/
structure Page where
  content : ℕ
  width : ℚ
  height : ℚ
  rotation : ℤ
  ops : List DrawOp
deriving Repr, DecidableEq

/-- Font-metric oracle for an embedded standard font. -/
structure PDFFont where
  widthOfTextAtSize : String → ℚ → ℚ
  heightAtSize : ℚ → ℚ

/--
Trigonometry oracle: `cos a` stands for `Math.cos(a * Math.PI / 180)` and
`sin a` for `Math.sin(a * Math.PI / 180)`, the only uses in the source.
-/
structure Trig where
  cos : ℤ → ℚ
  sin : ℤ → ℚ

/-- `StandardFonts` used by the source. -/
inductive StandardFont where
  | Helvetica
  | HelveticaBold
deriving Repr, DecidableEq

/-- Ambient pdf-lib environment: font embedding and trigonometry. -/
structure Env where
  embedFont : StandardFont → PDFFont
  trig : Trig

/-- Raw image bytes of a logo file, classified by what they decode as. -/
inductive ImageBytes where
  | png (w h : ℚ)
  | jpeg (w h : ℚ)
  | other
deriving Repr, DecidableEq

/-- A logo `File`: name, declared MIME type, and raw bytes. -/
structure LogoFile where
  name : String
  type : String
  bytes : ImageBytes
deriving Repr, DecidableEq

/-- An embedded image handle (its intrinsic dimensions). -/
structure PDFImage where
  width : ℚ
  height : ℚ
deriving Repr, DecidableEq

/-- `embedPng`: succeeds exactly on PNG-decodable bytes. -/
def embedPng : ImageBytes → Option PDFImage
  | .png w h => some ⟨w, h⟩
  | _ => none

/-- `embedJpg`: succeeds exactly on JPEG-decodable bytes. -/
def embedJpg : ImageBytes → Option PDFImage
  | .jpeg w h => some ⟨w, h⟩
  | _ => none

/-- `WatermarkConfig` (types.ts). -/
structure WatermarkConfig where
  diagonal : Bool
  bottom : Bool
  top : Bool
  crossed : Bool
  textColor : String
  textOpacity : ℚ
  logoFile : Option LogoFile
  logoOpacity : ℚ
  logoScale : ℚ

/-- `DEFAULT_MERGE_CONFIG`: the strict merge-mode configuration. -/
def DEFAULT_MERGE_CONFIG : WatermarkConfig :=
  { diagonal := true
    bottom := true
    top := false
    crossed := false
    textColor := "#808080"
    textOpacity := 2/10
    logoFile := none
    logoOpacity := 5/10
    logoScale := 5/10 }

/-- `PdfMetadata` (types.ts). -/
structure PdfMetadata where
  title : Option String
  author : Option String

/--
The local helper `drawRotatedWatermark` of `applyWatermarkToPage`: the text
draw operation for one rotated stamp on a page of size `width × height`.
-/
def drawRotatedWatermark (font : PDFFont) (trig : Trig) (width height : ℚ)
    (color : Color) (opacity : ℚ) (angle : ℤ) : DrawOp :=
  let fontSize := min width height * (11/100)
  let textWidth := font.widthOfTextAtSize DEFAULT_WATERMARK_TEXT fontSize
  let textHeight := font.heightAtSize fontSize
  let c := trig.cos angle
  let s := trig.sin angle
  let pCx := width / 2
  let pCy := height / 2
  let x := pCx - (textWidth / 2 * c - textHeight / 2 * s)
  let y := pCy - (textWidth / 2 * s + textHeight / 2 * c)
  DrawOp.text DEFAULT_WATERMARK_TEXT x y fontSize color opacity angle

/--
Step 1 of `applyWatermarkToPage`: the centred background logo draw, when an
embedded logo image is given.
-/
def logoWatermarkOps (config : WatermarkConfig) (width height : ℚ) :
    Option PDFImage → List DrawOp
  | some img =>
    let scaleFactor := width * config.logoScale / img.width
    let scaledWidth := img.width * scaleFactor
    let scaledHeight := img.height * scaleFactor
    [DrawOp.image (width / 2 - scaledWidth / 2) (height / 2 - scaledHeight / 2)
      scaledWidth scaledHeight config.logoOpacity]
  | none => []

/-- Step 4 of `applyWatermarkToPage`: the bottom footer stamp at 15 pt. -/
def footerStampOp (font : PDFFont) (width : ℚ) (color : Color) (opacity : ℚ) :
    DrawOp :=
  let footerSize : ℚ := 10
  let footerWidth := font.widthOfTextAtSize DEFAULT_WATERMARK_TEXT footerSize
  DrawOp.text DEFAULT_WATERMARK_TEXT (width / 2 - footerWidth / 2) 15
    footerSize color (min (opacity + 4/10) 1) 0

/-- Step 5 of `applyWatermarkToPage`: the top header stamp at `height − 25`. -/
def headerStampOp (font : PDFFont) (width height : ℚ) (color : Color)
    (opacity : ℚ) : DrawOp :=
  let headerSize : ℚ := 10
  let headerWidth := font.widthOfTextAtSize DEFAULT_WATERMARK_TEXT headerSize
  DrawOp.text DEFAULT_WATERMARK_TEXT (width / 2 - headerWidth / 2) (height - 25)
    headerSize color (min (opacity + 4/10) 1) 0

/--
`applyWatermarkToPage`: appends the logo draw (if an embedded logo is
given), then the enabled stamps, in source order (logo, diagonal, crossed,
bottom, top), to the page's operation list.
-/
def applyWatermarkToPage (trig : Trig) (page : Page) (font : PDFFont)
    (config : WatermarkConfig) (logoImage : Option PDFImage) : Page :=
  let width := page.width
  let height := page.height
  let color := hexToRgb config.textColor
  let opacity := config.textOpacity
  let logoOps : List DrawOp := logoWatermarkOps config width height logoImage
  let diagonalOps : List DrawOp :=
    if config.diagonal then
      [drawRotatedWatermark font trig width height color opacity WATERMARK_ANGLE]
    else []
  let crossedOps : List DrawOp :=
    if config.crossed then
      [drawRotatedWatermark font trig width height color opacity (-WATERMARK_ANGLE)]
    else []
  let bottomOps : List DrawOp :=
    if config.bottom then [footerStampOp font width color opacity] else []
  let topOps : List DrawOp :=
    if config.top then [headerStampOp font width height color opacity] else []
  { page with ops := page.ops ++ logoOps ++ diagonalOps ++ crossedOps ++ bottomOps ++ topOps }

/-- A pdf-lib `PDFDocument`: its pages and its metadata fields. -/
structure PDFDocument where
  pages : List Page
  title : Option String := none
  author : Option String := none
  creator : Option String := none
deriving Repr, DecidableEq

/--
A serialized byte buffer holding either a well-formed PDF (whose parse
yields the recorded pages) or malformed data.
-/
inductive PdfBytes where
  | valid (pages : List Page)
  | invalid
deriving Repr, DecidableEq

/-- `PDFDocument.load`: parses a buffer; throws (`none`) on malformed data. -/
def PDFDocument.load : PdfBytes → Option PDFDocument
  | .valid ps => some { pages := ps }
  | .invalid => none

/-- `doc.save()`: serializes the document's pages. -/
def PDFDocument.save (doc : PDFDocument) : PdfBytes :=
  .valid doc.pages

/-- `doc.getPageIndices()`. -/
def PDFDocument.getPageIndices (doc : PDFDocument) : List ℕ :=
  List.range doc.pages.length

/--
`dest.copyPages(doc, indices)`: the pages of `doc` at the given 0-based
indices, in order; throws (`none`) on an out-of-range index.
-/
def copyPages (doc : PDFDocument) : List ℕ → Option (List Page)
  | [] => some []
  | i :: rest =>
    match doc.pages[i]? with
    | none => none
    | some p => (copyPages doc rest).map (p :: ·)

/-- Applying the optional metadata and the fixed creator, as in the source. -/
def setMetadata (doc : PDFDocument) (metadata : Option PdfMetadata) : PDFDocument :=
  match metadata with
  | none => doc
  | some md =>
    { doc with
      title := md.title.orElse (fun _ => doc.title)
      author := md.author.orElse (fun _ => doc.author)
      creator := some "VTU Notes Merging System" }

/--
The draw operations of `generateDefaultCoverPage` on the fresh A4 page,
in source order, for a page of size `width × height`.  `fontBold` and
`fontReg` are the embedded HelveticaBold and Helvetica fonts.
-/
def defaultCoverOps (fontBold fontReg : PDFFont) (logoFile : Option LogoFile)
    (width height : ℚ) : List DrawOp :=
  let darkBlue := rgb (4/100) (9/100) (25/100)
  let brandCyan := rgb 0 (7/10) (8/10)
  let cardBlue := rgb (1/10) (2/10) (5/10)
  let headerHeight := height * (35/100)
  let bgOps : List DrawOp :=
    [DrawOp.rect 0 (height - headerHeight) width headerHeight darkBlue 1 none 0,
     DrawOp.rect 0 (height - headerHeight * (8/10)) width (headerHeight * (8/10))
       (rgb (5/100) (12/100) (35/100)) (5/10) none 0]
  let currentY₀ := height - 80
  let logoStep : List DrawOp × ℚ :=
    match logoFile with
    | some lf =>
      let embedded :=
        if lf.type = "image/jpeg" || lf.name.endsWith ".jpg" then embedJpg lf.bytes
        else embedPng lf.bytes
      match embedded with
      | some img =>
        let dimsW := img.width * (2/10)
        let dimsH := img.height * (2/10)
        ([DrawOp.image (width / 2 - dimsW / 2) (currentY₀ - dimsH) dimsW dimsH 1],
         currentY₀ - (dimsH + 20))
      | none => ([], currentY₀ - 50)
    | none => ([], currentY₀ - 80)
  let currentY := logoStep.2
  let titleWidth := fontBold.widthOfTextAtSize "vtunotesforall.in" 42
  let subWidth := fontBold.widthOfTextAtSize "EXCELLENCE IN ENGINEERING RESOURCES" 10
  let titleOps : List DrawOp :=
    [DrawOp.text "vtunotesforall.in" (width / 2 - titleWidth / 2) currentY 42 (rgb 1 1 1) 1 0,
     DrawOp.text "EXCELLENCE IN ENGINEERING RESOURCES" (width / 2 - subWidth / 2)
       (currentY - 25) 10 brandCyan 1 0]
  let cardY := height - headerHeight - 30
  let cardGap : ℚ := 20
  let cardWidth := (width - 100 - cardGap) / 2
  let cardHeight : ℚ := 140
  let cardOps : List DrawOp :=
    [DrawOp.rect 50 (cardY - cardHeight) cardWidth cardHeight (rgb 1 1 1) 1
       (some (rgb (9/10) (9/10) (9/10))) 1,
     DrawOp.text "About Us" 70 (cardY - 30) 14 darkBlue 1 0,
     DrawOp.text "A specialized digital ecosystem for VTU\nengineers. We provide syllabus-aligned,\nexam-centric resources to drive academic\nmastery and career success."
       70 (cardY - 55) 9 (rgb (4/10) (4/10) (4/10)) 1 0,
     DrawOp.rect (50 + cardWidth + cardGap) (cardY - cardHeight) cardWidth cardHeight
       cardBlue 1 none 0,
     DrawOp.text "Projects & Career" (50 + cardWidth + cardGap + 20) (cardY - 30) 14
       brandCyan 1 0]
  let listStartY := cardY - 55
  let listLineHeight : ℚ := 16
  let listItemOps : ℕ → String → List DrawOp := fun i item =>
    let itemY := listStartY - (i : ℚ) * listLineHeight
    [DrawOp.circle (50 + cardWidth + cardGap + 20) (itemY + 3) 2 (rgb 1 1 1),
     DrawOp.text item (50 + cardWidth + cardGap + 30) itemY 9 (rgb 1 1 1) 1 0]
  let listOps : List DrawOp :=
    listItemOps 0 "Placement Stories & Help" ++
    listItemOps 1 "Professional Project Inquiry" ++
    listItemOps 2 "Expert Career Guidance"
  let pillStartY := cardY - cardHeight - 30
  let pillHeight : ℚ := 30
  let pillGapY : ℚ := 15
  let pillRowOps : ℕ → String → String → List DrawOp := fun rowIndex leftLabel rightLabel =>
    let y := pillStartY - (rowIndex : ℚ) * (pillHeight + pillGapY)
    let midY := y - pillHeight / 2
    let rightPillX := 50 + cardWidth + cardGap
    [DrawOp.rect 50 (y - pillHeight) cardWidth pillHeight (rgb (96/100) (98/100) 1) 1 none 0,
     DrawOp.svgDiamond 62 (midY + 15) 3 (rgb (1/10) (1/10) (2/10)),
     DrawOp.svgDiamond 62 (y - 17) 3 (rgb (1/10) (1/10) (2/10)),
     DrawOp.text leftLabel 72 (y - 20) 9 (rgb (1/10) (1/10) (2/10)) 1 0,
     DrawOp.rect rightPillX (y - pillHeight) cardWidth pillHeight (rgb (96/100) (98/100) 1) 1 none 0,
     DrawOp.svgDiamond (rightPillX + 12) (y - 17) 3 (rgb (1/10) (1/10) (2/10)),
     DrawOp.text rightLabel (rightPillX + 22) (y - 20) 9 (rgb (1/10) (1/10) (2/10)) 1 0]
  let pillOps : List DrawOp :=
    pillRowOps 0 "SGPA Calculator" "Previous Year Papers" ++
    pillRowOps 1 "Model Question Papers" "Detailed QP Solutions" ++
    pillRowOps 2 "Placement Stories" "Semester Blueprints"
  let hubY := pillStartY - 3 * (pillHeight + pillGapY) - 20
  let hubHeight : ℚ := 150
  let iconY := hubY - 90
  let iconSize : ℚ := 30
  let centerX := width / 2
  let hubOps : List DrawOp :=
    [DrawOp.rect 50 (hubY - hubHeight) (width - 100) hubHeight (rgb (95/100) (96/100) (98/100)) 1 none 0,
     DrawOp.text "Community Hub" 70 (hubY - 30) 14 (rgb (1/10) (1/10) (1/10)) 1 0,
     DrawOp.text "Join thousands of VTU students in our digital circles." 70 (hubY - 45) 9
       (rgb (5/10) (5/10) (5/10)) 1 0,
     DrawOp.rect 100 iconY iconSize iconSize (rgb 0 (6/10) (5/10)) 1 none 0,
     DrawOp.text "W" 108 (iconY + 8) 14 (rgb 1 1 1) 1 0,
     DrawOp.text "Updates" 95 (iconY - 15) 9 (rgb 0 0 0) 1 0,
     DrawOp.rect (centerX - 15) iconY iconSize iconSize (rgb 0 (6/10) (5/10)) 1 none 0,
     DrawOp.text "W" (centerX - 7) (iconY + 8) 14 (rgb 1 1 1) 1 0,
     DrawOp.text "Forum" (centerX - 15) (iconY - 15) 9 (rgb 0 0 0) 1 0,
     DrawOp.rect (width - 130) iconY (iconSize + 10) iconSize (rgb (9/10) (1/10) (1/10)) 1 none 0,
     DrawOp.text "nammaVTUbros" (width - 155) (iconY - 15) 9 (rgb 0 0 0) 1 0]
  let footerText := "vtunotesforall.in   |   EMPOWERING ENGINEERS EVERY SEMESTER"
  let fWidth := fontBold.widthOfTextAtSize footerText 8
  let footerOps : List DrawOp :=
    [DrawOp.rect 0 0 width 60 darkBlue 1 none 0,
     DrawOp.text footerText (width / 2 - fWidth / 2) 25 8 (rgb 1 1 1) 1 0]
  bgOps ++ logoStep.1 ++ titleOps ++ cardOps ++ listOps ++ pillOps ++ hubOps ++ footerOps

/-- Abstract content tag of the synthesized default cover page. -/
def defaultCoverTag : ℕ := 0

/-- The single fresh A4 (`595.28 × 841.89` pt) page drawn by the synthesizer. -/
def defaultCoverPage (env : Env) (logoFile : Option LogoFile) : Page :=
  { content := defaultCoverTag
    width := 59528/100
    height := 84189/100
    rotation := 0
    ops := defaultCoverOps (env.embedFont .HelveticaBold) (env.embedFont .Helvetica)
      logoFile (59528/100) (84189/100) }

/--
`generateDefaultCoverPage`: appends exactly one fresh A4 page, fully
drawn, to the document.
-/
def generateDefaultCoverPage (env : Env) (doc : PDFDocument)
    (logoFile : Option LogoFile) : PDFDocument :=
  { doc with pages := doc.pages ++ [defaultCoverPage env logoFile] }

/--
The content loop of `mergeAndWatermarkPdfs`: loads each content buffer,
copies all of its pages, and watermarks each with `DEFAULT_MERGE_CONFIG`.
-/
def mergeContentLoop (trig : Trig) (font : PDFFont) :
    List PdfBytes → List Page → Option (List Page)
  | [], acc => some acc
  | f :: rest, acc =>
    match PDFDocument.load f with
    | none => none
    | some contentDoc =>
      match copyPages contentDoc contentDoc.getPageIndices with
      | none => none
      | some copied =>
        mergeContentLoop trig font rest
          (acc ++ copied.map (fun p => applyWatermarkToPage trig p font DEFAULT_MERGE_CONFIG none))

/--
`mergeAndWatermarkPdfs` (strict single-output merge), without the thrown
exception being converted yet: `none` stands for any internal failure.
-/
def mergeAndWatermarkPdfsCore (env : Env) (coverFile : Option PdfBytes)
    (contentFiles : List PdfBytes) (metadata : Option PdfMetadata)
    (defaultCoverLogo : Option LogoFile) (useDefaultCover : Bool) :
    Option PDFDocument :=
  let mergedPdf := setMetadata { pages := [] } metadata
  let helveticaFont := env.embedFont .HelveticaBold
  let afterCover : Option PDFDocument :=
    match coverFile with
    | some cf =>
      match PDFDocument.load cf with
      | none => none
      | some coverDoc =>
        match copyPages coverDoc coverDoc.getPageIndices with
        | none => none
        | some copied => some { mergedPdf with pages := mergedPdf.pages ++ copied }
    | none =>
      if useDefaultCover then some (generateDefaultCoverPage env mergedPdf defaultCoverLogo)
      else some mergedPdf
  match afterCover with
  | none => none
  | some doc =>
    match mergeContentLoop env.trig helveticaFont contentFiles doc.pages with
    | none => none
    | some pages => some { doc with pages := pages }

/--
`mergeAndWatermarkPdfs`: the exported entry point; the surrounding
`try/catch` converts any failure into one fixed error message.
-/
def mergeAndWatermarkPdfs (env : Env) (coverFile : Option PdfBytes)
    (contentFiles : List PdfBytes) (metadata : Option PdfMetadata)
    (defaultCoverLogo : Option LogoFile) (useDefaultCover : Bool) :
    Except String PdfBytes :=
  match mergeAndWatermarkPdfsCore env coverFile contentFiles metadata
      defaultCoverLogo useDefaultCover with
  | some doc => .ok doc.save
  | none => .error "Failed to process PDFs. Ensure files are valid."

/--
The logo-embedding step of `processBatchFile`: JPEG when the declared MIME
type is `image/jpeg` or the lowercased name ends in `.jpg`/`.jpeg`, PNG
otherwise; the surrounding `try/catch` turns an embedding failure into a
logged warning and `embeddedLogo = null`.
-/
def embedBatchLogo (config : WatermarkConfig) : Option PDFImage :=
  match config.logoFile with
  | none => none
  | some lf =>
    if lf.type = "image/jpeg" || lf.name.toLower.endsWith ".jpg"
        || lf.name.toLower.endsWith ".jpeg" then
      embedJpg lf.bytes
    else
      embedPng lf.bytes

/--
`processBatchFile` (batch mode with a caller-supplied configuration):
optional unwatermarked cover pages, then the content file's pages, each
watermarked with `config` and the embedded logo (if any).
-/
def processBatchFile (env : Env) (contentFile : PdfBytes)
    (coverFile : Option PdfBytes) (config : WatermarkConfig)
    (metadata : Option PdfMetadata) : Option PdfBytes :=
  let finalPdf := setMetadata { pages := [] } metadata
  let helveticaFont := env.embedFont .HelveticaBold
  let embeddedLogo := embedBatchLogo config
  let afterCover : Option PDFDocument :=
    match coverFile with
    | some cf =>
      match PDFDocument.load cf with
      | none => none
      | some coverDoc =>
        match copyPages coverDoc coverDoc.getPageIndices with
        | none => none
        | some copied => some { finalPdf with pages := finalPdf.pages ++ copied }
    | none => some finalPdf
  match afterCover with
  | none => none
  | some doc =>
    match PDFDocument.load contentFile with
    | none => none
    | some contentDoc =>
      match copyPages contentDoc contentDoc.getPageIndices with
      | none => none
      | some copied =>
        some (PDFDocument.save
          { doc with pages := doc.pages ++
              copied.map (fun p => applyWatermarkToPage env.trig p helveticaFont config embeddedLogo) })

/--
`mergeProcessedFiles` (the post-merge combiner): loads each processed
buffer in order and copies all of its pages into one fresh document.
-/
def mergeProcessedLoop : List PdfBytes → List Page → Option (List Page)
  | [], acc => some acc
  | bytes :: rest, acc =>
    match PDFDocument.load bytes with
    | none => none
    | some doc =>
      match copyPages doc doc.getPageIndices with
      | none => none
      | some copied => mergeProcessedLoop rest (acc ++ copied)

/--
`mergeProcessedFiles` (the post-merge combiner), continued: assembles the
collected pages and serializes once.
-/
def mergeProcessedFiles (processedFiles : List PdfBytes) : Option PdfBytes :=
  (mergeProcessedLoop processedFiles []).map (fun pages =>
    PDFDocument.save { pages := pages, creator := some "VTU Notes Merging System" })

/-- `EditorPage` (types.ts): one page reference in the editor's list. -/
structure EditorPage where
  id : String
  fileId : String
  originalPageIndex : ℕ
  rotation : ℤ
deriving Repr, DecidableEq

/-- `FileWithId` (types.ts): an uploaded file together with its id. -/
structure FileWithId where
  id : String
  file : PdfBytes
deriving Repr, DecidableEq

/-- Lookup in the `loadedDocs` record (`Record<string, PDFDocument>`). -/
def lookupDoc (cache : List (String × PDFDocument)) (key : String) :
    Option PDFDocument :=
  (cache.find? (fun e => e.1 = key)).map (·.2)

/--
The loop of `buildPdfFromEditor`, instrumented with the list of source
ids whose bytes were parsed (`PDFDocument.load` calls), in order.  The
first component is `none` when the call throws (parse failure or
out-of-range page index); a source id absent from `sourceFiles` makes the
loop `continue`, skipping that editor page.
-/
def buildLoop (sourceFiles : List FileWithId) :
    List EditorPage → List (String × PDFDocument) → List Page → List String →
    Option (List Page) × List String
  | [], _, acc, parsed => (some acc, parsed)
  | p :: rest, cache, acc, parsed =>
    match lookupDoc cache p.fileId with
    | some srcDoc =>
      match copyPages srcDoc [p.originalPageIndex] with
      | some [copiedPage] =>
        let currentRotation := copiedPage.rotation
        buildLoop sourceFiles rest cache
          (acc ++ [{ copiedPage with rotation := currentRotation + p.rotation }]) parsed
      | _ => (none, parsed)
    | none =>
      match sourceFiles.find? (fun f => f.id = p.fileId) with
      | none => buildLoop sourceFiles rest cache acc parsed
      | some sourceFile =>
        match PDFDocument.load sourceFile.file with
        | none => (none, parsed ++ [p.fileId])
        | some srcDoc =>
          match copyPages srcDoc [p.originalPageIndex] with
          | some [copiedPage] =>
            let currentRotation := copiedPage.rotation
            buildLoop sourceFiles rest (cache ++ [(p.fileId, srcDoc)])
              (acc ++ [{ copiedPage with rotation := currentRotation + p.rotation }])
              (parsed ++ [p.fileId])
          | _ => (none, parsed ++ [p.fileId])

/-- `buildPdfFromEditor`: compiles the editor page list into one output. -/
def buildPdfFromEditor (editorPages : List EditorPage)
    (sourceFiles : List FileWithId) : Option PdfBytes :=
  (buildLoop sourceFiles editorPages [] [] []).1.map
    (fun pages => PDFDocument.save { pages := pages })

/-- The parse trace of one `buildPdfFromEditor` invocation. -/
def buildParseTrace (editorPages : List EditorPage)
    (sourceFiles : List FileWithId) : List String :=
  (buildLoop sourceFiles editorPages [] [] []).2

/--
Cache-free reference form of the editor compile loop: resolve each editor
page against the source list directly.  Used to reason about `buildLoop`,
whose cache it is proved to coincide with.
-/
def compileSpec (sourceFiles : List FileWithId) : List EditorPage → Option (List Page)
  | [] => some []
  | p :: rest =>
    match sourceFiles.find? (fun f => f.id = p.fileId) with
    | none => compileSpec sourceFiles rest
    | some f =>
      match PDFDocument.load f.file with
      | none => none
      | some d =>
        match copyPages d [p.originalPageIndex] with
        | some [pg] =>
          (compileSpec sourceFiles rest).map
            (fun acc => { pg with rotation := pg.rotation + p.rotation } :: acc)
        | _ => none

/-! ### Helper lemmas -/

theorem copyPages_range' (doc : PDFDocument) :
    ∀ (sub : List Page) (k : ℕ), doc.pages.drop k = sub →
      copyPages doc (List.range' k sub.length) = some sub := by
  intro sub
  induction sub with
  | nil => intro k _; rfl
  | cons q rest ih =>
    intro k hk
    have hget : doc.pages[k]? = some q := by
      rw [← List.head?_drop, hk]; rfl
    have hdrop : doc.pages.drop (k + 1) = rest := by
      rw [← List.tail_drop, hk]; rfl
    have : (q :: rest).length = rest.length + 1 := by simp
    rw [this, List.range'_succ]
    simp only [copyPages, hget]
    rw [ih (k + 1) hdrop]
    rfl

theorem copyPages_getPageIndices (doc : PDFDocument) :
    copyPages doc doc.getPageIndices = some doc.pages := by
  have := copyPages_range' doc doc.pages 0 rfl
  simpa [PDFDocument.getPageIndices, List.range_eq_range'] using this

theorem copyPages_single (doc : PDFDocument) (i : ℕ) :
    copyPages doc [i] = (doc.pages[i]?).map (fun p => [p]) := by
  cases h : doc.pages[i]? <;> simp [copyPages, h]

theorem applyWatermarkToPage_content (trig : Trig) (page : Page) (font : PDFFont)
    (config : WatermarkConfig) (logo : Option PDFImage) :
    (applyWatermarkToPage trig page font config logo).content = page.content := rfl

/-- The strict-merge watermarking of one content page. -/
def strictStamp (trig : Trig) (font : PDFFont) (p : Page) : Page :=
  applyWatermarkToPage trig p font DEFAULT_MERGE_CONFIG none

theorem mergeContentLoop_valid (trig : Trig) (font : PDFFont)
    (contents : List (List Page)) (acc : List Page) :
    mergeContentLoop trig font (contents.map PdfBytes.valid) acc =
      some (acc ++ (contents.map (fun ps => ps.map (strictStamp trig font))).flatten) := by
  induction contents generalizing acc with
  | nil => simp [mergeContentLoop]
  | cons ps rest ih =>
    simp only [List.map_cons, mergeContentLoop, PDFDocument.load,
      copyPages_getPageIndices, List.flatten_cons]
    rw [ih]
    simp [strictStamp, List.append_assoc]

theorem setMetadata_pages (doc : PDFDocument) (md : Option PdfMetadata) :
    (setMetadata doc md).pages = doc.pages := by
  cases md <;> rfl

/-- The pages the cover step contributes, per cover input and flag. -/
def coverPagesOf (env : Env) (cover? : Option (List Page))
    (defaultCoverLogo : Option LogoFile) (useDefaultCover : Bool) : List Page :=
  match cover? with
  | some cps => cps
  | none => if useDefaultCover then [defaultCoverPage env defaultCoverLogo] else []

theorem mergeAndWatermarkPdfs_valid (env : Env) (cover? : Option (List Page))
    (contents : List (List Page)) (metadata : Option PdfMetadata)
    (defaultCoverLogo : Option LogoFile) (useDefaultCover : Bool) :
    mergeAndWatermarkPdfs env (cover?.map PdfBytes.valid) (contents.map PdfBytes.valid)
        metadata defaultCoverLogo useDefaultCover =
      .ok (.valid (coverPagesOf env cover? defaultCoverLogo useDefaultCover ++
        (contents.map (fun ps =>
          ps.map (strictStamp env.trig (env.embedFont .HelveticaBold)))).flatten)) := by
  cases cover? <;> cases useDefaultCover <;>
    simp [mergeAndWatermarkPdfs, mergeAndWatermarkPdfsCore, PDFDocument.load,
      copyPages_getPageIndices, setMetadata_pages, mergeContentLoop_valid,
      coverPagesOf, generateDefaultCoverPage, PDFDocument.save]

theorem hexCharVal_8 : hexCharVal '8' = 8 := by
  have hc : ('0' ≤ '8' && '8' ≤ '9') = true := by decide
  have hn : ('8'.toNat - '0'.toNat : ℕ) = 8 := by decide
  simp [hexCharVal, hc, hn]

theorem hexCharVal_0 : hexCharVal '0' = 0 := by
  have hc : ('0' ≤ '0' && '0' ≤ '9') = true := by decide
  have hn : ('0'.toNat - '0'.toNat : ℕ) = 0 := by decide
  simp [hexCharVal, hc, hn]

theorem hexToRgb_808080 :
    hexToRgb "#808080" = rgb (128/255) (128/255) (128/255) := by
  have hdata : "#808080".data = ['#', '8', '0', '8', '0', '8', '0'] := by decide
  have hhex : (isHexChar '8' && isHexChar '0' && isHexChar '8' &&
      isHexChar '0' && isHexChar '8' && isHexChar '0') = true := by decide
  have hpair : hexPairVal '8' '0' = 128/255 := by
    simp [hexPairVal, hexCharVal_8, hexCharVal_0]
    norm_num
  simp [hexToRgb, hexExec, hdata, hhex, hpair]

theorem strictStamp_eq (trig : Trig) (font : PDFFont) (p : Page) :
    strictStamp trig font p =
      { p with ops := p.ops ++
          [drawRotatedWatermark font trig p.width p.height
             (rgb (128/255) (128/255) (128/255)) (1/5) 60,
           DrawOp.text DEFAULT_WATERMARK_TEXT
             (p.width / 2 - font.widthOfTextAtSize DEFAULT_WATERMARK_TEXT 10 / 2) 15 10
             (rgb (128/255) (128/255) (128/255)) (3/5) 0] } := by
  simp [strictStamp, applyWatermarkToPage, DEFAULT_MERGE_CONFIG,
    logoWatermarkOps, footerStampOp, hexToRgb_808080, WATERMARK_ANGLE]
  norm_num [min_def]

theorem mergeProcessedLoop_valid (bufs : List (List Page)) (acc : List Page) :
    mergeProcessedLoop (bufs.map PdfBytes.valid) acc = some (acc ++ bufs.flatten) := by
  induction bufs generalizing acc with
  | nil => simp [mergeProcessedLoop]
  | cons ps rest ih =>
    simp only [List.map_cons, mergeProcessedLoop, PDFDocument.load,
      copyPages_getPageIndices, List.flatten_cons]
    rw [ih]
    simp [List.append_assoc]

/-! ### Claim theorems: merge pipeline -/

/--
C1.  For every merge invocation (`mergeAndWatermarkPdfs`) with an optional
cover and a list of content files that all parse successfully, the output
document's page count equals the cover's page count (0 when no cover and no
default-cover flag; exactly 1 when the default cover is synthesized) plus
the sum of the page counts of all content files.
-/
theorem merge_pageCount (env : Env) (cover? : Option (List Page))
    (contents : List (List Page)) (metadata : Option PdfMetadata)
    (defaultCoverLogo : Option LogoFile) (useDefaultCover : Bool) :
    ∃ out : List Page,
      mergeAndWatermarkPdfs env (cover?.map PdfBytes.valid)
          (contents.map PdfBytes.valid) metadata defaultCoverLogo useDefaultCover
        = .ok (.valid out) ∧
      out.length =
        (match cover? with
         | some cps => cps.length
         | none => if useDefaultCover then 1 else 0) +
        (contents.map List.length).sum := by
  refine ⟨_, mergeAndWatermarkPdfs_valid env cover? contents metadata
    defaultCoverLogo useDefaultCover, ?_⟩
  have hflat : ((contents.map (fun ps =>
      ps.map (strictStamp env.trig (env.embedFont .HelveticaBold)))).flatten).length
      = (contents.map List.length).sum := by
    simp [List.length_flatten, List.map_map, Function.comp_def]
  cases cover? with
  | some cps => simp [coverPagesOf, hflat]
  | none => cases useDefaultCover <;> simp [coverPagesOf, hflat, Nat.add_comm]

/--
C2.  For every ordering of the content-file list passed to
`mergeAndWatermarkPdfs`, pages appear in the output in the same relative
order as the input file list, and within each file in that file's original
page order (cover pages, when present, come first in their original
order): the output's sequence of page identities is the cover pages'
identities followed by the concatenation, in input order, of each content
file's page identities.
-/
theorem merge_order_preserved (env : Env) (cover? : Option (List Page))
    (contents : List (List Page)) (metadata : Option PdfMetadata)
    (defaultCoverLogo : Option LogoFile) (useDefaultCover : Bool) :
    ∃ out : List Page,
      mergeAndWatermarkPdfs env (cover?.map PdfBytes.valid)
          (contents.map PdfBytes.valid) metadata defaultCoverLogo useDefaultCover
        = .ok (.valid out) ∧
      out.map Page.content =
        (coverPagesOf env cover? defaultCoverLogo useDefaultCover).map Page.content ++
          contents.flatten.map Page.content := by
  refine ⟨_, mergeAndWatermarkPdfs_valid env cover? contents metadata
    defaultCoverLogo useDefaultCover, ?_⟩
  simp [List.map_flatten, List.map_map, Function.comp_def, strictStamp,
    applyWatermarkToPage_content]

/-- A blank A4 page with content tag `n`, no rotation and no draw ops. -/
def blankA4 (n : ℕ) : Page :=
  { content := n, width := 59528/100, height := 84189/100, rotation := 0, ops := [] }

/--
C7.  For every single-output merge with a supplied cover file, the cover's
pages are copied into the output with no watermark drawn on them (their
operation lists are unchanged, and the cover synthesizer is not invoked),
while every content page receives exactly the strict configuration's
stamps: the diagonal stamp at +60° and the bottom footer stamp, in the
strict gray `#808080` at opacities 0.2 and 0.6, and nothing else.  In
particular, a 2-page cover with content files of 3 and 1 pages yields 6
pages where pages 3–6 carry exactly the diagonal+bottom stamps and pages
1–2 carry none.
-/
theorem merge_cover_unwatermarked_strict_stamps (env : Env) (cps : List Page)
    (contents : List (List Page)) (metadata : Option PdfMetadata)
    (defaultCoverLogo : Option LogoFile) (useDefaultCover : Bool) :
    (mergeAndWatermarkPdfs env (some (.valid cps)) (contents.map PdfBytes.valid)
        metadata defaultCoverLogo useDefaultCover
      = .ok (.valid (cps ++ contents.flatten.map (fun p =>
          { p with ops := p.ops ++
              [drawRotatedWatermark (env.embedFont .HelveticaBold) env.trig
                 p.width p.height (rgb (128/255) (128/255) (128/255)) (1/5) 60,
               DrawOp.text DEFAULT_WATERMARK_TEXT
                 (p.width / 2 -
                   (env.embedFont .HelveticaBold).widthOfTextAtSize
                     DEFAULT_WATERMARK_TEXT 10 / 2) 15 10
                 (rgb (128/255) (128/255) (128/255)) (3/5) 0] })))) ∧
    (mergeAndWatermarkPdfs env (some (.valid [blankA4 1, blankA4 2]))
        [.valid [blankA4 3, blankA4 4, blankA4 5], .valid [blankA4 6]]
        metadata defaultCoverLogo useDefaultCover
      = .ok (.valid ([blankA4 1, blankA4 2] ++
          [blankA4 3, blankA4 4, blankA4 5, blankA4 6].map (fun p =>
            { p with ops :=
                [drawRotatedWatermark (env.embedFont .HelveticaBold) env.trig
                   p.width p.height (rgb (128/255) (128/255) (128/255)) (1/5) 60,
                 DrawOp.text DEFAULT_WATERMARK_TEXT
                   (p.width / 2 -
                     (env.embedFont .HelveticaBold).widthOfTextAtSize
                       DEFAULT_WATERMARK_TEXT 10 / 2) 15 10
                   (rgb (128/255) (128/255) (128/255)) (3/5) 0] })))) := by
  have key : ∀ (cps' : List Page) (contents' : List (List Page)),
      mergeAndWatermarkPdfs env (some (.valid cps')) (contents'.map PdfBytes.valid)
          metadata defaultCoverLogo useDefaultCover
        = .ok (.valid (cps' ++ contents'.flatten.map (fun p =>
            { p with ops := p.ops ++
                [drawRotatedWatermark (env.embedFont .HelveticaBold) env.trig
                   p.width p.height (rgb (128/255) (128/255) (128/255)) (1/5) 60,
                 DrawOp.text DEFAULT_WATERMARK_TEXT
                   (p.width / 2 -
                     (env.embedFont .HelveticaBold).widthOfTextAtSize
                       DEFAULT_WATERMARK_TEXT 10 / 2) 15 10
                   (rgb (128/255) (128/255) (128/255)) (3/5) 0] }))) := by
    intro cps' contents'
    have h := mergeAndWatermarkPdfs_valid env (some cps') contents' metadata
      defaultCoverLogo useDefaultCover
    simp only [Option.map_some'] at h
    rw [h]
    simp only [coverPagesOf]
    rw [← List.map_flatten]
    have hmap : List.map (strictStamp env.trig (env.embedFont .HelveticaBold))
          contents'.flatten =
        List.map (fun p =>
          { p with ops := p.ops ++
              [drawRotatedWatermark (env.embedFont .HelveticaBold) env.trig
                 p.width p.height (rgb (128/255) (128/255) (128/255)) (1/5) 60,
               DrawOp.text DEFAULT_WATERMARK_TEXT
                 (p.width / 2 -
                   (env.embedFont .HelveticaBold).widthOfTextAtSize
                     DEFAULT_WATERMARK_TEXT 10 / 2) 15 10
                 (rgb (128/255) (128/255) (128/255)) (3/5) 0] })
          contents'.flatten :=
      List.map_congr_left (fun p _ =>
        strictStamp_eq env.trig (env.embedFont .HelveticaBold) p)
    rw [hmap]
  refine ⟨key cps contents, ?_⟩
  have h := key [blankA4 1, blankA4 2] [[blankA4 3, blankA4 4, blankA4 5], [blankA4 6]]
  simpa [blankA4] using h

/--
C9.  For all parseable buffers `a`, `b`, `c`, the combiner
(`mergeProcessedFiles`) produces an output whose pages are exactly the
inputs' pages concatenated in order with no watermarking applied, so its
page count is the sum of its inputs' page counts, and combining is
associative in page count: `combine([combine([a,b]), c])` and
`combine([a,b,c])` produce equal page lists, hence equal total counts.
-/
theorem combine_pageCount_assoc (a b c : List Page) :
    mergeProcessedFiles [.valid a, .valid b] = some (.valid (a ++ b)) ∧
    (a ++ b).length = a.length + b.length ∧
    mergeProcessedFiles [.valid (a ++ b), .valid c] = some (.valid (a ++ b ++ c)) ∧
    mergeProcessedFiles [.valid a, .valid b, .valid c] = some (.valid (a ++ b ++ c)) := by
  refine ⟨?_, by simp, ?_, ?_⟩ <;>
    simp [mergeProcessedFiles, mergeProcessedLoop, PDFDocument.load,
      copyPages_getPageIndices, PDFDocument.save, List.append_assoc]

/-! ### Helper lemmas: editor pipeline -/

/--
Cache coherence invariant of `buildLoop`: every cached document is the
parsed form of the source file that `find?` locates for its key.
-/
def cacheOK (sourceFiles : List FileWithId)
    (cache : List (String × PDFDocument)) : Prop :=
  ∀ k d, lookupDoc cache k = some d →
    ∃ f, sourceFiles.find? (fun f => f.id = k) = some f ∧
      PDFDocument.load f.file = some d

theorem cacheOK_nil (sourceFiles : List FileWithId) : cacheOK sourceFiles [] := by
  intro k d h
  simp [lookupDoc] at h

theorem lookupDoc_append (c₁ c₂ : List (String × PDFDocument)) (k : String) :
    lookupDoc (c₁ ++ c₂) k = (lookupDoc c₁ k).or (lookupDoc c₂ k) := by
  cases hf : c₁.find? (fun e => e.1 = k) <;>
    simp [lookupDoc, List.find?_append, hf, Option.or]

theorem lookupDoc_singleton (k k' : String) (d : PDFDocument) :
    lookupDoc [(k, d)] k' = if k = k' then some d else none := by
  by_cases hk : k = k' <;> simp [lookupDoc, List.find?, hk]

theorem cacheOK_extend (sourceFiles : List FileWithId)
    (cache : List (String × PDFDocument)) (k : String) (f : FileWithId)
    (d : PDFDocument) (hOK : cacheOK sourceFiles cache)
    (hf : sourceFiles.find? (fun f => f.id = k) = some f)
    (hl : PDFDocument.load f.file = some d) :
    cacheOK sourceFiles (cache ++ [(k, d)]) := by
  intro k' d' h
  rw [lookupDoc_append] at h
  cases hc : lookupDoc cache k' with
  | some dd =>
    rw [hc] at h
    simp [Option.or] at h
    exact h ▸ hOK k' dd hc
  | none =>
    rw [hc] at h
    simp only [Option.or, lookupDoc_singleton] at h
    by_cases hk : k = k'
    · subst hk
      simp at h
      exact ⟨f, hf, h ▸ hl⟩
    · simp [hk] at h

theorem buildLoop_fst (sourceFiles : List FileWithId) :
    ∀ (eps : List EditorPage) (cache : List (String × PDFDocument))
      (acc : List Page) (parsed : List String), cacheOK sourceFiles cache →
      (buildLoop sourceFiles eps cache acc parsed).1 =
        (compileSpec sourceFiles eps).map (fun rest => acc ++ rest) := by
  intro eps
  induction eps with
  | nil => intro cache acc parsed _; simp [buildLoop, compileSpec]
  | cons p rest ih =>
    intro cache acc parsed hOK
    cases hld : lookupDoc cache p.fileId with
    | some d =>
      obtain ⟨f, hf, hl⟩ := hOK p.fileId d hld
      simp only [buildLoop, compileSpec, hld, hf, hl, copyPages_single]
      cases hpi : d.pages[p.originalPageIndex]? with
      | none => simp [hpi]
      | some pg =>
        simp only [hpi, Option.map_some']
        rw [ih cache _ parsed hOK]
        cases compileSpec sourceFiles rest <;> simp
    | none =>
      simp only [buildLoop, compileSpec, hld]
      cases hf : sourceFiles.find? (fun f => f.id = p.fileId) with
      | none =>
        simp only [hf]
        exact ih cache acc parsed hOK
      | some f =>
        simp only [hf]
        cases hl : PDFDocument.load f.file with
        | none => simp [hl]
        | some d =>
          simp only [hl, copyPages_single]
          cases hpi : d.pages[p.originalPageIndex]? with
          | none => simp [hpi]
          | some pg =>
            simp only [hpi, Option.map_some']
            rw [ih (cache ++ [(p.fileId, d)]) _ _
              (cacheOK_extend sourceFiles cache p.fileId f d hOK hf hl)]
            cases compileSpec sourceFiles rest <;> simp

theorem buildPdfFromEditor_eq (editorPages : List EditorPage)
    (sourceFiles : List FileWithId) :
    buildPdfFromEditor editorPages sourceFiles =
      (compileSpec sourceFiles editorPages).map
        (fun ps => PDFDocument.save { pages := ps }) := by
  unfold buildPdfFromEditor
  rw [buildLoop_fst sourceFiles editorPages [] [] [] (cacheOK_nil sourceFiles)]
  cases compileSpec sourceFiles editorPages <;> simp

/-- Every recorded parse has populated the cache. -/
def parsedOK (cache : List (String × PDFDocument)) (parsed : List String) : Prop :=
  ∀ s ∈ parsed, (lookupDoc cache s).isSome

theorem buildLoop_snd_nodup (sourceFiles : List FileWithId) :
    ∀ (eps : List EditorPage) (cache : List (String × PDFDocument))
      (acc : List Page) (parsed : List String),
      parsed.Nodup → parsedOK cache parsed →
      (buildLoop sourceFiles eps cache acc parsed).2.Nodup := by
  intro eps
  induction eps with
  | nil => intro cache acc parsed hnd _; simpa [buildLoop] using hnd
  | cons p rest ih =>
    intro cache acc parsed hnd hpOK
    have hnotmem : lookupDoc cache p.fileId = none → p.fileId ∉ parsed := by
      intro hnone hmem
      have := hpOK p.fileId hmem
      rw [hnone] at this
      simp at this
    have hnd' : lookupDoc cache p.fileId = none → (parsed ++ [p.fileId]).Nodup := by
      intro hnone
      have := hnotmem hnone
      simp [List.nodup_append, hnd, this]
    cases hld : lookupDoc cache p.fileId with
    | some d =>
      simp only [buildLoop, hld, copyPages_single]
      cases hpi : d.pages[p.originalPageIndex]? with
      | none => simpa [hpi] using hnd
      | some pg =>
        simp only [hpi, Option.map_some']
        exact ih cache _ parsed hnd hpOK
    | none =>
      simp only [buildLoop, hld]
      cases hf : sourceFiles.find? (fun f => f.id = p.fileId) with
      | none =>
        simp only [hf]
        exact ih cache acc parsed hnd hpOK
      | some f =>
        simp only [hf]
        cases hl : PDFDocument.load f.file with
        | none => simpa [hl] using hnd' hld
        | some d =>
          have hpOK' : parsedOK (cache ++ [(p.fileId, d)]) (parsed ++ [p.fileId]) := by
            intro s hs
            rw [lookupDoc_append]
            rcases List.mem_append.mp hs with hs | hs
            · have := hpOK s hs
              cases hc : lookupDoc cache s
              · rw [hc] at this; simp at this
              · simp [hc, Option.or]
            · simp at hs
              subst hs
              rw [hld]
              simp [Option.or, lookupDoc_singleton]
          simp only [hl, copyPages_single]
          cases hpi : d.pages[p.originalPageIndex]? with
          | none => simpa [hpi] using hnd' hld
          | some pg =>
            simp only [hpi, Option.map_some']
            exact ih (cache ++ [(p.fileId, d)]) _ _ (hnd' hld) hpOK'

theorem compileSpec_filter (sourceFiles : List FileWithId) :
    ∀ eps : List EditorPage,
      compileSpec sourceFiles (eps.filter
        (fun p => (sourceFiles.find? (fun f => f.id = p.fileId)).isSome)) =
      compileSpec sourceFiles eps := by
  intro eps
  induction eps with
  | nil => rfl
  | cons p rest ih =>
    cases hf : sourceFiles.find? (fun f => f.id = p.fileId) with
    | none => simp [List.filter, hf, compileSpec, ih]
    | some f => simp [List.filter, hf, compileSpec, ih]

theorem compileSpec_mem (sourceFiles : List FileWithId) :
    ∀ (eps : List EditorPage) (out : List Page),
      compileSpec sourceFiles eps = some out → ∀ q ∈ out,
      ∃ p, p ∈ eps ∧ ∃ f d pg,
        sourceFiles.find? (fun f => f.id = p.fileId) = some f ∧
        PDFDocument.load f.file = some d ∧
        d.pages[p.originalPageIndex]? = some pg ∧
        q = { pg with rotation := pg.rotation + p.rotation } := by
  intro eps
  induction eps with
  | nil =>
    intro out h q hq
    simp [compileSpec] at h
    subst h
    simp at hq
  | cons p rest ih =>
    intro out h q hq
    rw [compileSpec] at h
    cases hf : sourceFiles.find? (fun f => f.id = p.fileId) with
    | none =>
      simp only [hf] at h
      obtain ⟨p', hp', hrest⟩ := ih out h q hq
      exact ⟨p', List.mem_cons_of_mem p hp', hrest⟩
    | some f =>
      simp only [hf] at h
      cases hl : PDFDocument.load f.file with
      | none =>
        simp only [hl] at h
        exact absurd h (by simp)
      | some d =>
        simp only [hl, copyPages_single] at h
        cases hpi : d.pages[p.originalPageIndex]? with
        | none =>
          simp only [hpi, Option.map_none'] at h
          exact absurd h (by simp)
        | some pg =>
          simp only [hpi, Option.map_some'] at h
          cases hcs : compileSpec sourceFiles rest with
          | none =>
            simp only [hcs, Option.map_none'] at h
            exact absurd h (by simp)
          | some out' =>
            simp only [hcs, Option.map_some', Option.some.injEq] at h
            subst h
            rcases List.mem_cons.mp hq with hq | hq
            · exact ⟨p, List.mem_cons_self p rest,
                f, d, pg, hf, hl, hpi, hq⟩
            · obtain ⟨p', hp', hrest⟩ := ih out' hcs q hq
              exact ⟨p', List.mem_cons_of_mem p hp', hrest⟩

/-! ### Sample oracles for concrete evaluations -/

/-- A concrete font-metric oracle for witnesses. -/
def sampleFont : PDFFont :=
  { widthOfTextAtSize := fun _ s => s, heightAtSize := fun s => s }

/-- A concrete trigonometry oracle for witnesses. -/
def sampleTrig : Trig := { cos := fun _ => 1/2, sin := fun _ => 1/2 }

/-- A concrete ambient environment for witnesses. -/
def sampleEnv : Env := { embedFont := fun _ => sampleFont, trig := sampleTrig }

/-! ### Concrete fixtures for the editor counterexamples -/

/-- An editor page referencing source id `f1`, page 0, rotation delta 90. -/
def sampleEditorPage : EditorPage :=
  { id := "p1"
    fileId := "f1"
    originalPageIndex := 0
    rotation := 90 }

/-- A one-page source whose page carries rotation 270. -/
def rotatedSourcePage : Page :=
  { content := 1
    width := 100
    height := 200
    rotation := 270
    ops := [] }

/-- The uploaded source file with id `f1` holding `rotatedSourcePage`. -/
def sampleSourceFile : FileWithId :=
  { id := "f1", file := .valid [rotatedSourcePage] }

/-! ### Claim theorems: editor pipeline -/

/--
C3, counterexample.  `buildPdfFromEditor` invoked with one `EditorPage`
whose source id is absent from the supplied source list does **not** fail:
it succeeds and returns an output without that page (the loop hits
`if (!sourceFile) continue`), contradicting the claim that it fails with
`MissingSourceError`.
-/
theorem missing_source_not_error_cex :
    buildPdfFromEditor
        [{ id := "p1", fileId := "f1", originalPageIndex := 0, rotation := 0 }] []
      = some (PdfBytes.valid []) := rfl

/--
C3, amended.  If an EditorPage references a source document id that is not
present in the supplied source-file list, `buildPdfFromEditor` silently
skips that page and produces the output of the remaining pages; no error
is raised: compiling any page list equals compiling the sublist of pages
whose source id is present.
-/
theorem missing_source_silently_skipped (editorPages : List EditorPage)
    (sourceFiles : List FileWithId) :
    buildPdfFromEditor editorPages sourceFiles =
      buildPdfFromEditor
        (editorPages.filter
          (fun p => (sourceFiles.find? (fun f => f.id = p.fileId)).isSome))
        sourceFiles := by
  rw [buildPdfFromEditor_eq, buildPdfFromEditor_eq, compileSpec_filter]

/--
C5, counterexample.  The editor compile sets the copied page's rotation to
`currentRotation + rotationDelta` with **no** mod-360 reduction: a source
page with rotation 270 rotated by a delta of 90 is stored with rotation
360, not `(270 + 90) mod 360 = 0`.
-/
theorem rotation_not_normalized_cex :
    buildPdfFromEditor [sampleEditorPage] [sampleSourceFile]
      = some (.valid [{ rotatedSourcePage with rotation := 360 }]) ∧
    ¬ ((360 : ℤ) = (270 + 90) % 360) := by
  exact ⟨rfl, by decide⟩

/--
C5, amended.  For every EditorPage compiled by `buildPdfFromEditor`, the
copied page's rotation attribute is set to
`currentRotation + rotationDelta` — congruent to the claimed
`(currentRotation + rotationDelta) mod 360` but not reduced modulo 360:
every page of a successful compile is its source page with rotation
`pg.rotation + p.rotation` for the editor page `p` it came from.
-/
theorem rotation_additive_unnormalized (editorPages : List EditorPage)
    (sourceFiles : List FileWithId) (out : List Page)
    (h : buildPdfFromEditor editorPages sourceFiles = some (.valid out)) :
    ∀ q ∈ out, ∃ p, p ∈ editorPages ∧ ∃ f d pg,
      sourceFiles.find? (fun f => f.id = p.fileId) = some f ∧
      PDFDocument.load f.file = some d ∧
      d.pages[p.originalPageIndex]? = some pg ∧
      q = { pg with rotation := pg.rotation + p.rotation } := by
  rw [buildPdfFromEditor_eq] at h
  cases hcs : compileSpec sourceFiles editorPages with
  | none =>
    rw [hcs] at h
    exact absurd h (by simp)
  | some ps =>
    rw [hcs] at h
    simp only [Option.map_some', PDFDocument.save, Option.some.injEq,
      PdfBytes.valid.injEq] at h
    subst h
    exact compileSpec_mem sourceFiles editorPages ps hcs

/-- Witness for C5's amended theorem at the counterexample input. -/
theorem rotation_additive_unnormalized_witness :
    (buildPdfFromEditor [sampleEditorPage] [sampleSourceFile]
      = some (.valid [{ rotatedSourcePage with rotation := 360 }])) ∧
    ∀ q ∈ [{ rotatedSourcePage with rotation := 360 }],
      ∃ p, p ∈ [sampleEditorPage] ∧ ∃ f d pg,
        [sampleSourceFile].find? (fun f => f.id = p.fileId) = some f ∧
        PDFDocument.load f.file = some d ∧
        d.pages[p.originalPageIndex]? = some pg ∧
        q = { pg with rotation := pg.rotation + p.rotation } :=
  ⟨rfl, rotation_additive_unnormalized [sampleEditorPage] [sampleSourceFile]
    [{ rotatedSourcePage with rotation := 360 }] rfl⟩

/--
C8.  For every editor-compile invocation, each distinct source document id
referenced by the EditorPage list is parsed at most once, regardless of
how many EditorPages reference it: the parse trace of `buildPdfFromEditor`
has no duplicate source id.
-/
theorem editor_parse_at_most_once (editorPages : List EditorPage)
    (sourceFiles : List FileWithId) :
    (buildParseTrace editorPages sourceFiles).Nodup :=
  buildLoop_snd_nodup sourceFiles editorPages [] [] [] List.nodup_nil
    (by intro s hs; simp at hs)

/-! ### Helper lemmas: batch mode and watermark engine -/

theorem processBatchFile_valid (env : Env) (content : List Page)
    (cover? : Option (List Page)) (config : WatermarkConfig)
    (metadata : Option PdfMetadata) :
    processBatchFile env (.valid content) (cover?.map PdfBytes.valid) config metadata =
      some (.valid ((cover?.getD []) ++ content.map (fun p =>
        applyWatermarkToPage env.trig p (env.embedFont .HelveticaBold) config
          (embedBatchLogo config)))) := by
  cases cover? <;>
    simp [processBatchFile, PDFDocument.load, copyPages_getPageIndices,
      setMetadata_pages, PDFDocument.save]

theorem embedBatchLogo_other (config : WatermarkConfig) (lf : LogoFile)
    (hlf : config.logoFile = some lf) (hbytes : lf.bytes = ImageBytes.other) :
    embedBatchLogo config = none := by
  simp only [embedBatchLogo, hlf, hbytes]
  split <;> rfl

theorem applyWatermark_ops_drop (trig : Trig) (page : Page) (font : PDFFont)
    (config : WatermarkConfig) (logo : Option PDFImage) :
    (applyWatermarkToPage trig page font config logo).ops.drop page.ops.length =
      logoWatermarkOps config page.width page.height logo ++
      ((if config.diagonal then
          [drawRotatedWatermark font trig page.width page.height
            (hexToRgb config.textColor) config.textOpacity WATERMARK_ANGLE]
        else []) ++
       ((if config.crossed then
           [drawRotatedWatermark font trig page.width page.height
             (hexToRgb config.textColor) config.textOpacity (-WATERMARK_ANGLE)]
         else []) ++
        ((if config.bottom then
            [footerStampOp font page.width (hexToRgb config.textColor)
              config.textOpacity]
          else []) ++
         (if config.top then
            [headerStampOp font page.width page.height (hexToRgb config.textColor)
              config.textOpacity]
          else [])))) := by
  simp [applyWatermarkToPage, List.append_assoc, List.drop_left]

theorem applyWatermark_ops_take (trig : Trig) (page : Page) (font : PDFFont)
    (config : WatermarkConfig) (logo : Option PDFImage) :
    (applyWatermarkToPage trig page font config logo).ops.take page.ops.length =
      page.ops := by
  simp [applyWatermarkToPage, List.append_assoc, List.take_left]

theorem mem_ite_singleton {α : Type} {op x : α} {b : Bool}
    (h : op ∈ (if b then [x] else [])) : op = x := by
  cases b
  · simp at h
  · simpa using h

theorem applyWatermark_none_noImage (trig : Trig) (p : Page) (font : PDFFont)
    (config : WatermarkConfig) :
    ∀ op ∈ (applyWatermarkToPage trig p font config none).ops.drop p.ops.length,
      op.isImage = false := by
  intro op hop
  rw [applyWatermark_ops_drop] at hop
  simp only [logoWatermarkOps, List.nil_append, List.mem_append] at hop
  rcases hop with hop | hop | hop | hop <;>
    rw [mem_ite_singleton hop] <;>
    rfl

/-! ### Claim theorems: batch mode -/

/-- A GIF logo file: neither PNG- nor JPEG-decodable bytes. -/
def gifLogo : LogoFile := { name := "logo.gif", type := "image/gif", bytes := .other }

/-- A watermark configuration carrying the GIF logo. -/
def gifConfig : WatermarkConfig := { DEFAULT_MERGE_CONFIG with logoFile := some gifLogo }

/--
C4, counterexample.  `processBatchFile` with a logo whose bytes are
neither PNG- nor JPEG-decodable does **not** fail with
`UnsupportedImageFormat`: the embed error is caught (`catch` +
`console.warn`), the call succeeds, pages are drawn, and the output simply
carries no logo image operation.
-/
theorem unsupported_logo_no_failure_cex :
    ∃ out, processBatchFile sampleEnv (.valid [blankA4 1]) none gifConfig none
        = some (.valid out) ∧ out ≠ [] ∧
      ∀ q ∈ out, ∀ op ∈ q.ops, op.isImage = false := by
  have h := processBatchFile_valid sampleEnv [blankA4 1] none gifConfig none
  rw [embedBatchLogo_other gifConfig gifLogo rfl rfl] at h
  refine ⟨_, by simpa using h, by simp, ?_⟩
  intro q hq op hop
  simp only [List.mem_singleton] at hq
  subst hq
  have hall := applyWatermark_none_noImage sampleEnv.trig (blankA4 1) sampleFont gifConfig
  have hzero : (blankA4 1).ops.length = 0 := rfl
  rw [hzero, List.drop_zero] at hall
  exact hall op hop

/--
C4, amended.  For every batch-processing invocation whose `WatermarkConfig`
carries a logo whose bytes are neither PNG- nor JPEG-decodable, the engine
does **not** fail: the embedding error is caught and the output is produced
with every configured text stamp but without the logo — the result equals
watermarking with no embedded logo, and no logo image draw operation is
added to any page.
-/
theorem unsupported_logo_fallback (env : Env) (content : List Page)
    (cover? : Option (List Page)) (config : WatermarkConfig)
    (metadata : Option PdfMetadata) (lf : LogoFile)
    (hlf : config.logoFile = some lf) (hbytes : lf.bytes = ImageBytes.other) :
    processBatchFile env (.valid content) (cover?.map PdfBytes.valid) config metadata =
      some (.valid ((cover?.getD []) ++ content.map (fun p =>
        applyWatermarkToPage env.trig p (env.embedFont .HelveticaBold) config none))) ∧
    ∀ p ∈ content,
      ∀ op ∈ (applyWatermarkToPage env.trig p (env.embedFont .HelveticaBold)
          config none).ops.drop p.ops.length, op.isImage = false := by
  refine ⟨?_, fun p _ =>
    applyWatermark_none_noImage env.trig p (env.embedFont .HelveticaBold) config⟩
  rw [processBatchFile_valid, embedBatchLogo_other config lf hlf hbytes]

/-- Witness for C4's amended theorem at the GIF-logo input. -/
theorem unsupported_logo_fallback_witness :
    (gifConfig.logoFile = some gifLogo) ∧ (gifLogo.bytes = ImageBytes.other) ∧
    (processBatchFile sampleEnv (.valid [blankA4 1]) none gifConfig none =
        some (.valid ([] ++ [blankA4 1].map (fun p =>
          applyWatermarkToPage sampleEnv.trig p (sampleEnv.embedFont .HelveticaBold)
            gifConfig none))) ∧
      ∀ p ∈ [blankA4 1],
        ∀ op ∈ (applyWatermarkToPage sampleEnv.trig p
            (sampleEnv.embedFont .HelveticaBold) gifConfig none).ops.drop
            p.ops.length, op.isImage = false) :=
  ⟨rfl, rfl, by
    simpa using unsupported_logo_fallback sampleEnv [blankA4 1] none gifConfig none
      gifLogo rfl rfl⟩

/-! ### Claim theorems: watermark geometry and colour fallback -/

/--
C6.  For every page and every enabled rotated stamp (diagonal at +60°,
crossed at −60°), the watermark engine uses font size
`0.11 × min(pageWidth, pageHeight)` and draws the text at origin
`x = cx − (w/2·cosθ − h/2·sinθ)`, `y = cy − (w/2·sinθ + h/2·cosθ)` where
`(cx, cy)` is the page centre and `(w, h)` the text's un-rotated bounding
box at that size.  The computation is deterministic: the draw origin is a
pure function of the inputs, pinned down by the first equation, and both
rotated stamps appear in the page's operation list at angles +60 and −60.
-/
theorem rotated_stamp_geometry (trig : Trig) (page : Page) (font : PDFFont)
    (config : WatermarkConfig) (logo : Option PDFImage)
    (hd : config.diagonal = true) (hc : config.crossed = true) :
    (∀ angle : ℤ,
      drawRotatedWatermark font trig page.width page.height
          (hexToRgb config.textColor) config.textOpacity angle =
        DrawOp.text DEFAULT_WATERMARK_TEXT
          (page.width / 2 -
            (font.widthOfTextAtSize DEFAULT_WATERMARK_TEXT
                (min page.width page.height * (11/100)) / 2 * trig.cos angle -
              font.heightAtSize (min page.width page.height * (11/100)) / 2 *
                trig.sin angle))
          (page.height / 2 -
            (font.widthOfTextAtSize DEFAULT_WATERMARK_TEXT
                (min page.width page.height * (11/100)) / 2 * trig.sin angle +
              font.heightAtSize (min page.width page.height * (11/100)) / 2 *
                trig.cos angle))
          (min page.width page.height * (11/100)) (hexToRgb config.textColor)
          config.textOpacity angle) ∧
    ∃ logoOps trailing,
      (applyWatermarkToPage trig page font config logo).ops =
        page.ops ++ logoOps ++
          (drawRotatedWatermark font trig page.width page.height
              (hexToRgb config.textColor) config.textOpacity WATERMARK_ANGLE ::
            drawRotatedWatermark font trig page.width page.height
              (hexToRgb config.textColor) config.textOpacity (-WATERMARK_ANGLE) ::
            trailing) := by
  refine ⟨fun angle => rfl,
    logoWatermarkOps config page.width page.height logo,
    (if config.bottom then
        [footerStampOp font page.width (hexToRgb config.textColor) config.textOpacity]
      else []) ++
      (if config.top then
        [headerStampOp font page.width page.height (hexToRgb config.textColor)
          config.textOpacity]
      else []), ?_⟩
  simp [applyWatermarkToPage, hd, hc, List.append_assoc]

/-- Witness for C6's theorem with both rotated stamps enabled. -/
theorem rotated_stamp_geometry_witness :
    ({ DEFAULT_MERGE_CONFIG with crossed := true }.diagonal = true) ∧
    ({ DEFAULT_MERGE_CONFIG with crossed := true }.crossed = true) ∧
    ∃ logoOps trailing,
      (applyWatermarkToPage sampleTrig (blankA4 1) sampleFont
          { DEFAULT_MERGE_CONFIG with crossed := true } none).ops =
        (blankA4 1).ops ++ logoOps ++
          (drawRotatedWatermark sampleFont sampleTrig (blankA4 1).width
              (blankA4 1).height
              (hexToRgb { DEFAULT_MERGE_CONFIG with crossed := true }.textColor)
              { DEFAULT_MERGE_CONFIG with crossed := true }.textOpacity
              WATERMARK_ANGLE ::
            drawRotatedWatermark sampleFont sampleTrig (blankA4 1).width
              (blankA4 1).height
              (hexToRgb { DEFAULT_MERGE_CONFIG with crossed := true }.textColor)
              { DEFAULT_MERGE_CONFIG with crossed := true }.textOpacity
              (-WATERMARK_ANGLE) ::
            trailing) :=
  ⟨rfl, rfl, (rotated_stamp_geometry sampleTrig (blankA4 1) sampleFont
    { DEFAULT_MERGE_CONFIG with crossed := true } none rfl rfl).2⟩

/--
C10.  For every `WatermarkConfig` whose `textColor` string does not match
the six-hex-digit form (optionally prefixed with `#`, case-insensitive),
the watermark engine does not fail: `applyWatermarkToPage` is total,
leaves the page's original operations in place, and draws every text stamp
it adds in the fixed gray `rgb(0.5, 0.5, 0.5)`.
-/
theorem hex_fallback_gray (trig : Trig) (page : Page) (font : PDFFont)
    (config : WatermarkConfig) (logo : Option PDFImage)
    (h : hexMatches config.textColor = false) :
    (applyWatermarkToPage trig page font config logo).ops.take page.ops.length
        = page.ops ∧
    ∀ op ∈ (applyWatermarkToPage trig page font config logo).ops.drop
        page.ops.length,
      ∀ c, DrawOp.textColor op = some c → c = STRICT_WATERMARK_COLOR := by
  have hcol : hexToRgb config.textColor = STRICT_WATERMARK_COLOR := by
    unfold hexToRgb
    unfold hexMatches at h
    cases hx : hexExec config.textColor with
    | none => simp
    | some c0 => rw [hx] at h; simp at h
  refine ⟨applyWatermark_ops_take trig page font config logo, ?_⟩
  intro op hop c hcop
  rw [applyWatermark_ops_drop] at hop
  rcases List.mem_append.mp hop with hop | hop
  · exfalso
    cases logo with
    | none => simp [logoWatermarkOps] at hop
    | some img =>
      simp only [logoWatermarkOps, List.mem_singleton] at hop
      rw [hop] at hcop
      exact Option.noConfusion hcop
  · rw [hcol] at hop
    simp only [List.mem_append] at hop
    rcases hop with hop | hop | hop | hop <;>
      rw [mem_ite_singleton hop] at hcop <;>
      simpa [drawRotatedWatermark, footerStampOp, headerStampOp,
        DrawOp.textColor] using hcop.symm

/-- Witness for C10's theorem at a non-matching colour string. -/
theorem hex_fallback_gray_witness :
    (hexMatches "zzz" = false) ∧
    ((applyWatermarkToPage sampleTrig (blankA4 1) sampleFont
        { DEFAULT_MERGE_CONFIG with textColor := "zzz" } none).ops.take
        (blankA4 1).ops.length = (blankA4 1).ops ∧
      ∀ op ∈ (applyWatermarkToPage sampleTrig (blankA4 1) sampleFont
          { DEFAULT_MERGE_CONFIG with textColor := "zzz" } none).ops.drop
          (blankA4 1).ops.length,
        ∀ c, DrawOp.textColor op = some c → c = STRICT_WATERMARK_COLOR) :=
  ⟨by decide, hex_fallback_gray sampleTrig (blankA4 1) sampleFont
    { DEFAULT_MERGE_CONFIG with textColor := "zzz" } none (by decide)⟩

end Pdf1
